import Mathlib

/-!
# Verification of the OpenCFD D2Q9 Lattice Boltzmann solver

Shallow embedding of src/OpenCFD/OpenCFD.cpp.  Real (float) arithmetic is
modelled exactly over the rationals; machine integers are modelled on the
integers with explicit bounds.  Each definition mirrors one constant,
member function, or loop body of the C++ source; cell fields are modelled
as functions from integer coordinates, and the per-step passes of the
class FastAirLBM are state transformers on a record of those fields.
-/

namespace OpenCFD

/-- Domain width, the constant NX = 400 of the source. -/
def NX : ℤ := 400

/-- Domain height, the constant NY = 200 of the source. -/
def NY : ℤ := 200

/-- D2Q9 lattice x-components, the table ex of the source. -/
def ex : Fin 9 → ℤ := ![0, 1, 0, -1, 0, 1, -1, -1, 1]

/-- D2Q9 lattice y-components, the table ey of the source. -/
def ey : Fin 9 → ℤ := ![0, 0, 1, 0, -1, 1, 1, -1, -1]

/-- D2Q9 lattice weights, the table w of the source. -/
def w : Fin 9 → ℚ := ![4/9, 1/9, 1/9, 1/9, 1/9, 1/36, 1/36, 1/36, 1/36]

/-- Opposite-direction index table, the table opp of the source. -/
def opp : Fin 9 → Fin 9 := ![0, 3, 4, 1, 2, 7, 8, 5, 6]

/-- The density floor 1e-10f used by ComputeMacroscopic. -/
def epsRho : ℚ := 1 / 10 ^ 10

/-- Zeroth moment of a cell's populations: the accumulation
density += f[k][id] of ComputeMacroscopic. -/
def sumF (g : Fin 9 → ℚ) : ℚ := ∑ k, g k

/-- First moment, x: the accumulation vel_x += ex[k] * f[k][id]. -/
def momX (g : Fin 9 → ℚ) : ℚ := ∑ k, (ex k : ℚ) * g k

/-- First moment, y: the accumulation vel_y += ey[k] * f[k][id]. -/
def momY (g : Fin 9 → ℚ) : ℚ := ∑ k, (ey k : ℚ) * g k

/-- Reconstructed density of a cell: density = max(density, 1e-10f)
in ComputeMacroscopic. -/
def recRho (g : Fin 9 → ℚ) : ℚ := max (sumF g) epsRho

/-- Reconstructed x-velocity: ux[id] = vel_x / density (floored density). -/
def recUx (g : Fin 9 → ℚ) : ℚ := momX g / recRho g

/-- Reconstructed y-velocity: uy[id] = vel_y / density (floored density). -/
def recUy (g : Fin 9 → ℚ) : ℚ := momY g / recRho g

/-- The equilibrium populations of ComputeEquilibrium (and of the inline
recomputation in Collision): f_k = w_k rho (1 + 3 eu + 4.5 eu^2 - 1.5 usq)
with eu = ex_k u + ey_k v and usq = u^2 + v^2. -/
def equilibrium (density u v : ℚ) : Fin 9 → ℚ := fun k =>
  w k * density *
    (1 + 3 * ((ex k : ℚ) * u + (ey k : ℚ) * v)
       + (9/2) * (((ex k : ℚ) * u + (ey k : ℚ) * v) * ((ex k : ℚ) * u + (ey k : ℚ) * v))
       - (3/2) * (u * u + v * v))

/-- One cell's BGK collision, as executed by Collision on a fluid cell after
ComputeMacroscopic has stored recRho/recUx/recUy of that cell:
f[k][id] = f[k][id] - (f[k][id] - feq) / tau. -/
def collideCell (g : Fin 9 → ℚ) (tau : ℚ) : Fin 9 → ℚ := fun k =>
  g k - (g k - equilibrium (recRho g) (recUx g) (recUy g) k) / tau

/-- The obstacle mask carved by Initialize: a disc of radius R = NY/9
centred at (cx, cy) = (NX/4, NY/2) = (100, 100), obstacle[id] =
(dx*dx + dy*dy <= R*R). -/
def circleObstacle (x y : ℤ) : Bool :=
  decide ((((x : ℚ) - 100) * ((x : ℚ) - 100) + ((y : ℚ) - 100) * ((y : ℚ) - 100))
          ≤ (200/9) * (200/9))

/-- The per-instance state of class FastAirLBM: distribution functions f,
macroscopic fields rho/ux/uy, obstacle mask, relaxation time and inlet
velocity.  Cell arrays are modelled as functions of the (x, y) coordinates
used by idx. -/
structure LBM where
  f : Fin 9 → ℤ → ℤ → ℚ
  rho : ℤ → ℤ → ℚ
  ux : ℤ → ℤ → ℚ
  uy : ℤ → ℤ → ℚ
  obstacle : ℤ → ℤ → Bool
  tau : ℚ
  uIn : ℚ

/-- ComputeMacroscopic: obstacle cells are forced to rho = 1, u = 0; fluid
cells get the floored zeroth moment and the momentum divided by it. -/
def computeMacroscopic (s : LBM) : LBM :=
  { s with
    rho := fun x y => if s.obstacle x y then 1 else recRho (fun k => s.f k x y)
    ux := fun x y => if s.obstacle x y then 0 else recUx (fun k => s.f k x y)
    uy := fun x y => if s.obstacle x y then 0 else recUy (fun k => s.f k x y) }

/-- Collision: obstacle cells are skipped (continue); fluid cells relax
toward the equilibrium of the stored rho/ux/uy at rate 1/tau. -/
def collision (s : LBM) : LBM :=
  { s with
    f := fun k x y =>
      if s.obstacle x y then s.f k x y
      else s.f k x y - (s.f k x y - equilibrium (s.rho x y) (s.ux x y) (s.uy x y) k) / s.tau }

/-- The sequential periodic wrap of Streaming applied to a y target:
if (y_new < 0) y_new = NY - 1; if (y_new >= NY) y_new = 0. -/
def wrapY (t : ℤ) : ℤ :=
  if t < 0 then NY - 1 else if NY ≤ t then 0 else t

/-- The first Streaming loop writes f[k] of every source cell into
f_temp[k] of the wrapped target cell, skipping targets whose x leaves
[0, NX); f_temp starts zero-initialised.  For a fixed direction the write
map is injective on targets, so the resulting f_temp is, cell by cell,
the population pulled from the unique in-range source (x - ex k,
wrapY (y - ey k)), and 0 where the source column falls outside [0, NX).
The lemma streamPull_target below re-derives the source-to-target
(push) reading of the loop from this definition. -/
def streamPull (f : Fin 9 → ℤ → ℤ → ℚ) (k : Fin 9) (x y : ℤ) : ℚ :=
  if 0 ≤ x - ex k ∧ x - ex k < NX then f k (x - ex k) (wrapY (y - ey k)) else 0

/-- Streaming: the bulk pull, followed by the bounce-back loop that
overwrites every direction of an obstacle cell with the opposite-direction
population stored at that same cell. -/
def streaming (s : LBM) : LBM :=
  { s with
    f := fun k x y =>
      if s.obstacle x y then s.f (opp k) x y else streamPull s.f k x y }

/-- The inlet velocity profile of BoundaryConditions:
profile = max(0.3f, 1 - 2 (y_c/(NY/2))^2) with y_c = y - NY/2. -/
def inletProfile (y : ℤ) : ℚ :=
  max (3/10) (1 - 2 * ((((y : ℚ) - 100) / 100) * (((y : ℚ) - 100) / 100)))

/-- BoundaryConditions: the inlet pass fixes rho = 1,
u = (uIn * profile(y), 0) on column x = 0 and overwrites its populations
with the corresponding equilibrium; the outlet pass copies the fields and
populations of column NX - 2 into column NX - 1. -/
def boundaryConditions (s : LBM) : LBM :=
  { s with
    rho := fun x y =>
      if x = 0 then 1 else if x = NX - 1 then s.rho (NX - 2) y else s.rho x y
    ux := fun x y =>
      if x = 0 then s.uIn * inletProfile y
      else if x = NX - 1 then s.ux (NX - 2) y else s.ux x y
    uy := fun x y =>
      if x = 0 then 0 else if x = NX - 1 then s.uy (NX - 2) y else s.uy x y
    f := fun k x y =>
      if x = 0 then equilibrium 1 (s.uIn * inletProfile y) 0 k
      else if x = NX - 1 then s.f k (NX - 2) y else s.f k x y }

/-- Total density over the fluid cells of the grid. -/
def totalFluidDensity (s : LBM) : ℚ :=
  ∑ x ∈ Finset.range 400, ∑ y ∈ Finset.range 200,
    if s.obstacle (x : ℤ) (y : ℤ) then 0 else sumF (fun k => s.f k (x : ℤ) (y : ℤ))

/-- The obstacle radius used by the constructor and by GetReynolds:
radius = NY / 9.0f. -/
def lbmRadius : ℚ := 200 / 9

/-- The raw relaxation time of the constructor:
nu = u_in * (2 * radius) / Re and tau = 3 * nu + 0.5f. -/
def unclampedTau (uIn Re radius : ℚ) : ℚ :=
  3 * (uIn * (2 * radius) / Re) + 1/2

/-- First clamp of the constructor: if (tau < 0.51f) tau = 0.51f. -/
def clampLow (t : ℚ) : ℚ := if t < 51/100 then 51/100 else t

/-- Second clamp of the constructor: if (tau > 0.8f) tau = 0.8f. -/
def clampHigh (t : ℚ) : ℚ := if 4/5 < t then 4/5 else t

/-- The relaxation time stored by the constructor after both clamps. -/
def derivedTau (uIn Re radius : ℚ) : ℚ :=
  clampHigh (clampLow (unclampedTau uIn Re radius))

/-- GetReynolds: u_in * (2 * radius) / ((tau - 0.5f) / 3.0f) with
radius = NY / 9.0f. -/
def getReynolds (uIn tau : ℚ) : ℚ :=
  uIn * (2 * lbmRadius) / ((tau - 1/2) / 3)

/-- A state whose populations are all zero on every cell, with the
built-in obstacle mask and the built-in parameters. -/
def zeroState : LBM :=
  { f := fun _ _ _ => 0
    rho := fun _ _ => 1
    ux := fun _ _ => 0
    uy := fun _ _ => 0
    obstacle := circleObstacle
    tau := 8/15
    uIn := 1/4 }

/-- A concrete state with direction-dependent populations, used to witness
the bounce-back and boundary theorems. -/
def demoState : LBM :=
  { f := fun k _ _ => ((k : ℕ) : ℚ) + 1
    rho := fun _ _ => 1
    ux := fun _ _ => 0
    uy := fun _ _ => 0
    obstacle := circleObstacle
    tau := 8/15
    uIn := 1/4 }

/-- A state whose only nonzero population sits in direction 1 at the solid
cell (122, 100) on the boundary of the built-in obstacle disc. -/
def solidSourceState : LBM :=
  { f := fun k x y => if k = 1 ∧ x = 122 ∧ y = 100 then 42 else 0
    rho := fun _ _ => 1
    ux := fun _ _ => 0
    uy := fun _ _ => 0
    obstacle := circleObstacle
    tau := 8/15
    uIn := 1/4 }

/-- Unfold a 9-term lattice sum. -/
lemma sum_fin9 (g : Fin 9 → ℚ) :
    ∑ k, g k = g 0 + g 1 + g 2 + g 3 + g 4 + g 5 + g 6 + g 7 + g 8 := by
  rw [Fin.sum_univ_castSucc, Fin.sum_univ_eight]
  rfl

lemma ex0 : ex 0 = 0 := rfl
lemma ex1 : ex 1 = 1 := rfl
lemma ex2 : ex 2 = 0 := rfl
lemma ex3 : ex 3 = -1 := rfl
lemma ex4 : ex 4 = 0 := rfl
lemma ex5 : ex 5 = 1 := rfl
lemma ex6 : ex 6 = -1 := rfl
lemma ex7 : ex 7 = -1 := rfl
lemma ex8 : ex 8 = 1 := rfl
lemma ey0 : ey 0 = 0 := rfl
lemma ey1 : ey 1 = 0 := rfl
lemma ey2 : ey 2 = 1 := rfl
lemma ey3 : ey 3 = 0 := rfl
lemma ey4 : ey 4 = -1 := rfl
lemma ey5 : ey 5 = 1 := rfl
lemma ey6 : ey 6 = 1 := rfl
lemma ey7 : ey 7 = -1 := rfl
lemma ey8 : ey 8 = -1 := rfl
lemma w0 : w 0 = 4/9 := rfl
lemma w1 : w 1 = 1/9 := rfl
lemma w2 : w 2 = 1/9 := rfl
lemma w3 : w 3 = 1/9 := rfl
lemma w4 : w 4 = 1/9 := rfl
lemma w5 : w 5 = 1/36 := rfl
lemma w6 : w 6 = 1/36 := rfl
lemma w7 : w 7 = 1/36 := rfl
lemma w8 : w 8 = 1/36 := rfl

/-- The equilibrium populations carry the prescribed density. -/
lemma sumF_equilibrium (density u v : ℚ) :
    sumF (equilibrium density u v) = density := by
  rw [sumF, sum_fin9]
  simp only [equilibrium, ex0, ex1, ex2, ex3, ex4, ex5, ex6, ex7, ex8,
    ey0, ey1, ey2, ey3, ey4, ey5, ey6, ey7, ey8,
    w0, w1, w2, w3, w4, w5, w6, w7, w8]
  push_cast
  ring

/-- The equilibrium populations carry the prescribed x-momentum. -/
lemma momX_equilibrium (density u v : ℚ) :
    momX (equilibrium density u v) = density * u := by
  rw [momX, sum_fin9]
  simp only [equilibrium, ex0, ex1, ex2, ex3, ex4, ex5, ex6, ex7, ex8,
    ey0, ey1, ey2, ey3, ey4, ey5, ey6, ey7, ey8,
    w0, w1, w2, w3, w4, w5, w6, w7, w8]
  push_cast
  ring

/-- The equilibrium populations carry the prescribed y-momentum. -/
lemma momY_equilibrium (density u v : ℚ) :
    momY (equilibrium density u v) = density * v := by
  rw [momY, sum_fin9]
  simp only [equilibrium, ex0, ex1, ex2, ex3, ex4, ex5, ex6, ex7, ex8,
    ey0, ey1, ey2, ey3, ey4, ey5, ey6, ey7, ey8,
    w0, w1, w2, w3, w4, w5, w6, w7, w8]
  push_cast
  ring

/-- The reconstructed density is at least the floor, hence positive. -/
lemma recRho_pos (g : Fin 9 → ℚ) : 0 < recRho g :=
  lt_of_lt_of_le (by norm_num [epsRho]) (le_max_right _ _)

lemma recRho_ne_zero (g : Fin 9 → ℚ) : recRho g ≠ 0 :=
  ne_of_gt (recRho_pos g)

/-- When the floor is inactive the reconstructed density is the raw sum. -/
lemma recRho_of_floor_le (g : Fin 9 → ℚ) (h : epsRho ≤ sumF g) :
    recRho g = sumF g := max_eq_left h

/-- Linearity of the lattice moments used by the conservation proofs. -/
lemma sumF_sub_div (g h : Fin 9 → ℚ) (c : ℚ) :
    sumF (fun k => g k - h k / c) = sumF g - sumF h / c := by
  simp [sumF, Finset.sum_sub_distrib, Finset.sum_div]

lemma momX_sub_div (g h : Fin 9 → ℚ) (c : ℚ) :
    momX (fun k => g k - h k / c) = momX g - momX h / c := by
  simp [momX, mul_sub, Finset.sum_sub_distrib, Finset.sum_div, mul_div_assoc]

lemma momY_sub_div (g h : Fin 9 → ℚ) (c : ℚ) :
    momY (fun k => g k - h k / c) = momY g - momY h / c := by
  simp [momY, mul_sub, Finset.sum_sub_distrib, Finset.sum_div, mul_div_assoc]

/-- What collision does to a cell's zeroth moment: it is pulled toward the
floored reconstructed density at rate 1/tau. -/
lemma sumF_collideCell_eq (g : Fin 9 → ℚ) (tau : ℚ) :
    sumF (collideCell g tau) = sumF g - (sumF g - recRho g) / tau := by
  have h1 : sumF (collideCell g tau)
      = sumF g - sumF (fun k => g k - equilibrium (recRho g) (recUx g) (recUy g) k) / tau := by
    unfold collideCell
    exact sumF_sub_div g _ tau
  have h2 : sumF (fun k => g k - equilibrium (recRho g) (recUx g) (recUy g) k)
      = sumF g - recRho g := by
    have := sumF_sub_div g (fun k => equilibrium (recRho g) (recUx g) (recUy g) k) 1
    simp only [div_one] at this
    rw [this, sumF_equilibrium]
  rw [h1, h2]

/-- BGK collision leaves the zeroth moment unchanged whenever the density
floor of the preceding reconstruction was inactive. -/
lemma sumF_collideCell (g : Fin 9 → ℚ) (tau : ℚ)
    (hg : epsRho ≤ sumF g) : sumF (collideCell g tau) = sumF g := by
  rw [sumF_collideCell_eq, recRho_of_floor_le g hg, sub_self, zero_div, sub_zero]

/-- BGK collision leaves the first moment in x unchanged (the reconstructed
velocity is momentum divided by the same floored density the equilibrium is
evaluated at, so the equilibrium reproduces the momentum exactly). -/
lemma momX_collideCell (g : Fin 9 → ℚ) (tau : ℚ) :
    momX (collideCell g tau) = momX g := by
  have h1 : momX (collideCell g tau)
      = momX g - momX (fun k => g k - equilibrium (recRho g) (recUx g) (recUy g) k) / tau := by
    unfold collideCell
    exact momX_sub_div g _ tau
  have h2 : momX (fun k => g k - equilibrium (recRho g) (recUx g) (recUy g) k)
      = momX g - recRho g * recUx g := by
    have := momX_sub_div g (fun k => equilibrium (recRho g) (recUx g) (recUy g) k) 1
    simp only [div_one] at this
    rw [this, momX_equilibrium]
  have h3 : recRho g * recUx g = momX g := by
    rw [recUx, mul_div_cancel₀ _ (recRho_ne_zero g)]
  rw [h1, h2, h3, sub_self, zero_div, sub_zero]

/-- BGK collision leaves the first moment in y unchanged. -/
lemma momY_collideCell (g : Fin 9 → ℚ) (tau : ℚ) :
    momY (collideCell g tau) = momY g := by
  have h1 : momY (collideCell g tau)
      = momY g - momY (fun k => g k - equilibrium (recRho g) (recUx g) (recUy g) k) / tau := by
    unfold collideCell
    exact momY_sub_div g _ tau
  have h2 : momY (fun k => g k - equilibrium (recRho g) (recUx g) (recUy g) k)
      = momY g - recRho g * recUy g := by
    have := momY_sub_div g (fun k => equilibrium (recRho g) (recUx g) (recUy g) k) 1
    simp only [div_one] at this
    rw [this, momY_equilibrium]
  have h3 : recRho g * recUy g = momY g := by
    rw [recUy, mul_div_cancel₀ _ (recRho_ne_zero g)]
  rw [h1, h2, h3, sub_self, zero_div, sub_zero]

/-- Every lattice y-offset is -1, 0 or 1. -/
lemma ey_cases (k : Fin 9) : ey k = -1 ∨ ey k = 0 ∨ ey k = 1 := by
  fin_cases k <;> simp [ey0, ey1, ey2, ey3, ey4, ey5, ey6, ey7, ey8]

/-- Push reading of the first Streaming loop: an in-range write of source
(x, y) in direction k lands at (x + ex k, wrapY (y + ey k)) carrying
f k x y, which is exactly what streamPull reports there. -/
lemma streamPull_target (f : Fin 9 → ℤ → ℤ → ℚ) (k : Fin 9) (x y : ℤ)
    (hx : 0 ≤ x) (hx2 : x < NX) (hy : 0 ≤ y) (hy2 : y < NY) :
    streamPull f k (x + ex k) (wrapY (y + ey k)) = f k x y := by
  have hwrap : wrapY (wrapY (y + ey k) - ey k) = y := by
    rcases ey_cases k with h | h | h <;>
      simp only [h, wrapY, NY] at hy2 ⊢ <;> split_ifs <;> omega
  rw [streamPull, if_pos (by constructor <;> omega : 0 ≤ x + ex k - ex k ∧ x + ex k - ex k < NX)]
  rw [add_sub_cancel_right, hwrap]

/-- On a fluid cell, ComputeMacroscopic followed by Collision acts exactly
as the per-cell BGK operator collideCell on that cell's populations. -/
lemma collision_fluid_cell (s : LBM) (x y : ℤ) (hob : s.obstacle x y = false) :
    (fun k => (collision (computeMacroscopic s)).f k x y)
      = collideCell (fun k => s.f k x y) s.tau := by
  funext k
  simp only [collision, computeMacroscopic, collideCell, hob, Bool.false_eq_true,
    if_false, recRho, recUx, recUy]

/-- Obstacle cells are untouched by ComputeMacroscopic and Collision. -/
lemma collision_solid_cell (s : LBM) (x y : ℤ) (hob : s.obstacle x y = true) (k : Fin 9) :
    (collision (computeMacroscopic s)).f k x y = s.f k x y := by
  simp only [collision, computeMacroscopic, hob, if_true]

/-- C1 amended: provided every fluid cell's population sum is at least the
reconstruction floor 1e-10 (so the density floor is inactive), the
ComputeMacroscopic-then-Collision pass leaves every fluid cell's density
and momentum unchanged, and the total density over all fluid cells is
invariant.  (Momentum is unchanged even without the floor hypothesis,
as momX_collideCell and momY_collideCell record.) -/
theorem collision_conserves_cell_moments (s : LBM) (htau : s.tau ≠ 0)
    (hfloor : ∀ x y : ℤ, s.obstacle x y = false →
      epsRho ≤ sumF (fun k => s.f k x y)) :
    (∀ x y : ℤ, s.obstacle x y = false →
      sumF (fun k => (collision (computeMacroscopic s)).f k x y)
          = sumF (fun k => s.f k x y) ∧
      momX (fun k => (collision (computeMacroscopic s)).f k x y)
          = momX (fun k => s.f k x y) ∧
      momY (fun k => (collision (computeMacroscopic s)).f k x y)
          = momY (fun k => s.f k x y)) ∧
    totalFluidDensity (collision (computeMacroscopic s)) = totalFluidDensity s := by
  have hcell : ∀ x y : ℤ, s.obstacle x y = false →
      sumF (fun k => (collision (computeMacroscopic s)).f k x y)
        = sumF (fun k => s.f k x y) ∧
      momX (fun k => (collision (computeMacroscopic s)).f k x y)
        = momX (fun k => s.f k x y) ∧
      momY (fun k => (collision (computeMacroscopic s)).f k x y)
        = momY (fun k => s.f k x y) := by
    intro x y hob
    rw [collision_fluid_cell s x y hob]
    exact ⟨sumF_collideCell _ _ (hfloor x y hob),
      momX_collideCell _ _, momY_collideCell _ _⟩
  refine ⟨hcell, ?_⟩
  unfold totalFluidDensity
  refine Finset.sum_congr rfl fun x _ => Finset.sum_congr rfl fun y _ => ?_
  have hobs : (collision (computeMacroscopic s)).obstacle = s.obstacle := rfl
  rw [hobs]
  cases hob : s.obstacle (x : ℤ) (y : ℤ) with
  | true => rfl
  | false =>
    simp only [Bool.false_eq_true, if_false]
    exact (hcell (x : ℤ) (y : ℤ) hob).1

theorem collision_conserves_cell_moments_witness :
    demoState.tau ≠ 0 ∧
    (∀ x y : ℤ, demoState.obstacle x y = false →
      epsRho ≤ sumF (fun k => demoState.f k x y)) ∧
    totalFluidDensity (collision (computeMacroscopic demoState))
      = totalFluidDensity demoState := by
  have htau : demoState.tau ≠ 0 := by norm_num [demoState]
  have hfloor : ∀ x y : ℤ, demoState.obstacle x y = false →
      epsRho ≤ sumF (fun k => demoState.f k x y) := by
    intro x y _
    have hs : sumF (fun k => demoState.f k x y) = 45 := by
      rw [show (fun k => demoState.f k x y) = fun k : Fin 9 => ((k : ℕ) : ℚ) + 1 from rfl,
        sumF, sum_fin9]
      norm_num [show ((0 : Fin 9) : ℕ) = 0 from rfl, show ((1 : Fin 9) : ℕ) = 1 from rfl,
        show ((2 : Fin 9) : ℕ) = 2 from rfl, show ((3 : Fin 9) : ℕ) = 3 from rfl,
        show ((4 : Fin 9) : ℕ) = 4 from rfl, show ((5 : Fin 9) : ℕ) = 5 from rfl,
        show ((6 : Fin 9) : ℕ) = 6 from rfl, show ((7 : Fin 9) : ℕ) = 7 from rfl,
        show ((8 : Fin 9) : ℕ) = 8 from rfl]
    rw [hs]
    norm_num [epsRho]
  exact ⟨htau, hfloor,
    (collision_conserves_cell_moments demoState htau hfloor).2⟩

/-- C1 counterexample: on a fluid cell whose populations are all zero, the
reconstruction floor engages (recRho = 1e-10 differs from the true sum 0)
and the collision pass changes the cell's density, so collision does not
conserve density for every fluid cell, nor the total fluid density. -/
theorem collision_density_floor_counterexample :
    zeroState.obstacle 0 0 = false ∧
    sumF (fun k => (collision (computeMacroscopic zeroState)).f k 0 0)
      ≠ sumF (fun k => zeroState.f k 0 0) := by
  have hob : zeroState.obstacle 0 0 = false := by
    show circleObstacle 0 0 = false
    simp only [circleObstacle, decide_eq_false_iff_not]
    norm_num
  refine ⟨hob, ?_⟩
  rw [collision_fluid_cell zeroState 0 0 hob]
  have hz : (fun k => zeroState.f k 0 0) = fun _ : Fin 9 => (0 : ℚ) := rfl
  rw [hz, sumF_collideCell_eq]
  have h0 : sumF (fun _ : Fin 9 => (0 : ℚ)) = 0 := by
    simp [sumF]
  have hr : recRho (fun _ : Fin 9 => (0 : ℚ)) = epsRho := by
    rw [recRho, h0]
    exact max_eq_right (by norm_num [epsRho])
  rw [h0, hr]
  norm_num [epsRho, zeroState]

/-- C5: for every parameter combination with Re > 0 fed through the setup
derivation nu = u_in (2 radius) / Re, tau = 3 nu + 0.5, the stored
relaxation time after the two clamps lies in the stable band
[0.51, 0.8]; in particular it is never at or below 0.5. -/
theorem tau_clamped_in_stable_band (uIn Re radius : ℚ) (hRe : 0 < Re) :
    51/100 ≤ derivedTau uIn Re radius ∧ derivedTau uIn Re radius ≤ 4/5 ∧
    1/2 < derivedTau uIn Re radius := by
  unfold derivedTau clampHigh clampLow unclampedTau
  split_ifs with h1 h2 h2
  · exact absurd h2 (by norm_num)
  · norm_num
  · norm_num
  · exact ⟨by linarith, by linarith, by linarith⟩

theorem tau_clamped_in_stable_band_witness :
    (0 : ℚ) < 1000 ∧
    (51/100 ≤ derivedTau (1/4) 1000 lbmRadius ∧ derivedTau (1/4) 1000 lbmRadius ≤ 4/5 ∧
     1/2 < derivedTau (1/4) 1000 lbmRadius) :=
  ⟨by norm_num, tau_clamped_in_stable_band (1/4) 1000 lbmRadius (by norm_num)⟩

/-- C6 counterexample: with the built-in configuration u_in = 0.25,
Re = 1000, radius = NY/9, the unclamped relaxation time is 8/15 = 0.5333...,
which is NOT below 0.51, and the stored tau is not the floor value 0.51. -/
theorem builtin_tau_clamp_counterexample :
    unclampedTau (1/4) 1000 lbmRadius = 8/15 ∧
    ¬ unclampedTau (1/4) 1000 lbmRadius < 51/100 ∧
    derivedTau (1/4) 1000 lbmRadius ≠ 51/100 := by
  norm_num [unclampedTau, derivedTau, clampLow, clampHigh, lbmRadius]

/-- C6 amended: with the built-in configuration the unclamped tau equals
8/15, which already lies inside the stable band [0.51, 0.8], so neither
clamp activates and the stored tau is the unclamped 8/15. -/
theorem builtin_tau_equals_unclamped :
    derivedTau (1/4) 1000 lbmRadius = unclampedTau (1/4) 1000 lbmRadius ∧
    derivedTau (1/4) 1000 lbmRadius = 8/15 ∧
    (51/100 : ℚ) ≤ 8/15 ∧ (8/15 : ℚ) ≤ 4/5 := by
  norm_num [unclampedTau, derivedTau, clampLow, clampHigh, lbmRadius]

/-- C10: GetReynolds computes u_in (2 radius) / ((tau - 0.5)/3), and this
equals the configured target Reynolds number exactly when the clamps left
the derived tau unchanged. -/
theorem getReynolds_roundtrip (uIn Re : ℚ) (hRe : 0 < Re) :
    getReynolds uIn (derivedTau uIn Re lbmRadius) = Re ↔
    derivedTau uIn Re lbmRadius = unclampedTau uIn Re lbmRadius := by
  have hRe' : Re ≠ 0 := ne_of_gt hRe
  unfold getReynolds derivedTau clampHigh clampLow unclampedTau lbmRadius
  set c : ℚ := uIn * (2 * (200/9)) with hc
  split_ifs with h1 h2 h2
  · exact absurd h2 (by norm_num)
  · have hlt : 300 * c < Re := by
      have hq : c / Re < 1/300 := by linarith
      rw [div_lt_iff₀ hRe] at hq
      linarith
    apply iff_of_false
    · intro hEq
      rw [show ((51:ℚ)/100 - 1/2)/3 = 1/300 by norm_num,
        div_eq_iff (by norm_num : ((1:ℚ)/300) ≠ 0)] at hEq
      linarith
    · intro hEq
      linarith
  · have hgt : Re < 10 * c := by
      have hq : 1/10 < c / Re := by linarith
      rw [lt_div_iff₀ hRe] at hq
      linarith
    apply iff_of_false
    · intro hEq
      rw [show ((4:ℚ)/5 - 1/2)/3 = 1/10 by norm_num,
        div_eq_iff (by norm_num : ((1:ℚ)/10) ≠ 0)] at hEq
      linarith
    · intro hEq
      linarith
  · have hge : Re / 300 ≤ c := by
      have hq : 1/300 ≤ c / Re := by linarith
      rw [le_div_iff₀ hRe] at hq
      linarith
    have hcpos : 0 < c := lt_of_lt_of_le (by linarith) hge
    have hc0 : c ≠ 0 := ne_of_gt hcpos
    apply iff_of_true
    · have hstep : (3 * (c / Re) + 1/2 - 1/2)/3 = c/Re := by ring
      rw [hstep, div_div_eq_mul_div, mul_comm, mul_div_assoc, div_self hc0, mul_one]
    · rfl

theorem getReynolds_roundtrip_witness :
    (0 : ℚ) < 1000 ∧
    (getReynolds (1/4) (derivedTau (1/4) 1000 lbmRadius) = 1000 ↔
     derivedTau (1/4) 1000 lbmRadius = unclampedTau (1/4) 1000 lbmRadius) :=
  ⟨by norm_num, getReynolds_roundtrip (1/4) 1000 (by norm_num)⟩

/-- C2 amended: feeding Equilibrium(rho, u) through the Reconstructor
returns exactly (rho, u) for every rho at or above the reconstruction
density floor 1e-10 and every velocity with squared magnitude below
0.3^2 = 0.09. -/
theorem equilibrium_reconstruct_roundtrip (density u v : ℚ)
    (hd : epsRho ≤ density) (hu : u * u + v * v < 9/100) :
    recRho (equilibrium density u v) = density ∧
    recUx (equilibrium density u v) = u ∧
    recUy (equilibrium density u v) = v := by
  have h1 : recRho (equilibrium density u v) = density := by
    rw [recRho, sumF_equilibrium]
    exact max_eq_left hd
  have hd0 : density ≠ 0 := by
    have h2 : (0 : ℚ) < epsRho := by norm_num [epsRho]
    exact ne_of_gt (lt_of_lt_of_le h2 hd)
  refine ⟨h1, ?_, ?_⟩
  · rw [recUx, h1, momX_equilibrium, mul_comm, mul_div_assoc, div_self hd0, mul_one]
  · rw [recUy, h1, momY_equilibrium, mul_comm, mul_div_assoc, div_self hd0, mul_one]

theorem equilibrium_reconstruct_roundtrip_witness :
    epsRho ≤ (1 : ℚ) ∧ ((1/4 : ℚ) * (1/4) + 0 * 0 < 9/100) ∧
    (recRho (equilibrium 1 (1/4) 0) = 1 ∧
     recUx (equilibrium 1 (1/4) 0) = 1/4 ∧
     recUy (equilibrium 1 (1/4) 0) = 0) :=
  ⟨by norm_num [epsRho], by norm_num,
   equilibrium_reconstruct_roundtrip 1 (1/4) 0 (by norm_num [epsRho]) (by norm_num)⟩

/-- C2 counterexample: at the positive density 1e-11 (below the
reconstruction floor 1e-10) and admissible velocity (0.1, 0), the
Reconstructor reports the floor instead of the original density, so the
round trip fails even though rho > 0 and the speed is below 0.3. -/
theorem equilibrium_roundtrip_floor_counterexample :
    (0 : ℚ) < 1/10^11 ∧ ((1/10 : ℚ) * (1/10) + 0 * 0 < 9/100) ∧
    recRho (equilibrium (1/10^11) (1/10) 0) ≠ 1/10^11 := by
  refine ⟨by norm_num, by norm_num, ?_⟩
  rw [recRho, sumF_equilibrium,
    max_eq_right (by norm_num [epsRho] : (1/10^11 : ℚ) ≤ epsRho)]
  norm_num [epsRho]

/-- C9: the Reconstructor floors the summed density at the positive
epsilon 1e-10 before dividing, so the divisor is positive for every
population vector - including ones summing to zero or a negative value -
and the density stored for every cell by ComputeMacroscopic is positive. -/
theorem reconstruction_density_floor :
    (∀ g : Fin 9 → ℚ, epsRho ≤ recRho g ∧ 0 < recRho g ∧ recRho g ≠ 0) ∧
    (∀ (s : LBM) (x y : ℤ), 0 < (computeMacroscopic s).rho x y) := by
  refine ⟨fun g => ⟨le_max_right _ _, recRho_pos g, recRho_ne_zero g⟩,
    fun s x y => ?_⟩
  simp only [computeMacroscopic]
  split_ifs
  · norm_num
  · exact recRho_pos _

/-- C3: after the streaming pass following ComputeMacroscopic and Collision,
every direction k of a solid cell holds the pre-collision population of the
opposite direction opp(k) stored at that same cell (collision skips solid
cells, so pre-collision and current agree there), and the opposite-index
table reverses the lattice vectors. -/
theorem solid_bounceback (s : LBM) (x y : ℤ) (hob : s.obstacle x y = true) :
    (∀ k, (streaming (collision (computeMacroscopic s))).f k x y = s.f (opp k) x y) ∧
    (∀ k, ex (opp k) = - ex k ∧ ey (opp k) = - ey k) := by
  refine ⟨fun k => ?_, by decide⟩
  have hob2 : (collision (computeMacroscopic s)).obstacle x y = true := hob
  have h1 : (streaming (collision (computeMacroscopic s))).f k x y
      = (collision (computeMacroscopic s)).f (opp k) x y := by
    simp only [streaming, hob2, if_true]
  rw [h1, collision_solid_cell s x y hob]

theorem solid_bounceback_witness :
    demoState.obstacle 100 100 = true ∧
    (streaming (collision (computeMacroscopic demoState))).f 1 100 100
      = demoState.f 3 100 100 := by
  have hob : demoState.obstacle 100 100 = true := by
    show circleObstacle 100 100 = true
    simp only [circleObstacle, decide_eq_true_eq]
    norm_num
  exact ⟨hob, (solid_bounceback demoState 100 100 hob).1 1⟩

/-- C4 amended: populations stored at solid cells ARE streamed outward by
the first streaming loop, which visits every source cell without consulting
the obstacle mask; a fluid cell whose in-range upstream neighbour is solid
receives that solid cell's population (only the values stored at the solid
cells themselves are replaced, by bounce-back). -/
theorem streaming_pulls_from_solid_sources (s : LBM) (k : Fin 9) (x y : ℤ)
    (hfluid : s.obstacle x y = false)
    (hx : 0 ≤ x - ex k) (hx2 : x - ex k < NX)
    (hsolid : s.obstacle (x - ex k) (wrapY (y - ey k)) = true) :
    (streaming s).f k x y = s.f k (x - ex k) (wrapY (y - ey k)) := by
  simp only [streaming, hfluid, Bool.false_eq_true, if_false, streamPull]
  rw [if_pos ⟨hx, hx2⟩]

theorem streaming_pulls_from_solid_sources_witness :
    solidSourceState.obstacle 123 100 = false ∧
    0 ≤ 123 - ex 1 ∧ 123 - ex 1 < NX ∧
    solidSourceState.obstacle (123 - ex 1) (wrapY (100 - ey 1)) = true ∧
    (streaming solidSourceState).f 1 123 100
      = solidSourceState.f 1 (123 - ex 1) (wrapY (100 - ey 1)) := by
  have hfluid : solidSourceState.obstacle 123 100 = false := by
    show circleObstacle 123 100 = false
    simp only [circleObstacle, decide_eq_false_iff_not]
    norm_num
  have hsrc : (123 : ℤ) - ex 1 = 122 := by rw [ex1]; norm_num
  have hwr : wrapY ((100 : ℤ) - ey 1) = 100 := by
    rw [ey1]
    simp [wrapY, NY]
  have hsolid : solidSourceState.obstacle (123 - ex 1) (wrapY (100 - ey 1)) = true := by
    rw [hsrc, hwr]
    show circleObstacle 122 100 = true
    simp only [circleObstacle, decide_eq_true_eq]
    norm_num
  exact ⟨hfluid, by rw [ex1]; norm_num, by rw [ex1, NX]; norm_num, hsolid,
    streaming_pulls_from_solid_sources solidSourceState 1 123 100 hfluid
      (by rw [ex1]; norm_num) (by rw [ex1, NX]; norm_num) hsolid⟩

/-- C4 counterexample: in a state whose only nonzero population (value 42)
sits at the solid boundary cell (122, 100) in direction 1, the fluid cell
(123, 100) receives exactly that value after streaming, so a fluid cell's
next-generation population CAN be a value copied from a solid source
cell. -/
theorem streaming_from_solid_counterexample :
    solidSourceState.obstacle 123 100 = false ∧
    solidSourceState.obstacle 122 100 = true ∧
    (streaming solidSourceState).f 1 123 100 = 42 ∧
    solidSourceState.f 1 123 100 = 0 ∧
    (∀ (k : Fin 9) (x y : ℤ), solidSourceState.obstacle x y = false →
      solidSourceState.f k x y = 0) := by
  have hfluid : solidSourceState.obstacle 123 100 = false := by
    show circleObstacle 123 100 = false
    simp only [circleObstacle, decide_eq_false_iff_not]
    norm_num
  have hsolid : solidSourceState.obstacle 122 100 = true := by
    show circleObstacle 122 100 = true
    simp only [circleObstacle, decide_eq_true_eq]
    norm_num
  refine ⟨hfluid, hsolid, ?_, rfl, ?_⟩
  · have h1 : (streaming solidSourceState).f 1 123 100
        = solidSourceState.f 1 122 100 := by
      simp only [streaming, hfluid, Bool.false_eq_true, if_false, streamPull]
      rw [if_pos (by rw [ex1, NX]; norm_num : (0:ℤ) ≤ 123 - ex 1 ∧ 123 - ex 1 < NX)]
      rw [show (123 : ℤ) - ex 1 = 122 by rw [ex1]; norm_num,
        show wrapY ((100 : ℤ) - ey 1) = 100 by rw [ey1]; simp [wrapY, NY]]
    rw [h1]
    rfl
  · intro k x y hf
    show (if k = 1 ∧ x = 122 ∧ y = 100 then (42 : ℚ) else 0) = 0
    split_ifs with hcond
    · exfalso
      obtain ⟨-, hxv, hyv⟩ := hcond
      subst hxv
      subst hyv
      rw [hsolid] at hf
      simp at hf
    · rfl

/-- C7: streaming wraps target y coordinates modulo NY (the sequential
edge tests agree with the mathematical remainder for any in-range source
row), drops populations whose source column lies outside [0, NX) so
out-of-domain streams land nowhere (the cell keeps the zero-initialised
value), and the subsequent boundary pass fully determines the populations
of the inlet column x = 0 (independently of what streamed in) and of the
outlet column x = NX - 1 (copied from column NX - 2). -/
theorem streaming_boundary_policy :
    (∀ (y : ℤ) (k : Fin 9), 0 ≤ y → y < NY →
      wrapY (y + ey k) = (y + ey k) % NY) ∧
    (∀ (s : LBM) (k : Fin 9) (x y : ℤ), s.obstacle x y = false →
      (x - ex k < 0 ∨ NX ≤ x - ex k) → (streaming s).f k x y = 0) ∧
    (∀ (s : LBM) (k : Fin 9) (y : ℤ),
      (boundaryConditions s).f k 0 y = equilibrium 1 (s.uIn * inletProfile y) 0 k ∧
      (boundaryConditions s).f k (NX - 1) y = s.f k (NX - 2) y) := by
  refine ⟨fun y k hy hy2 => ?_, fun s k x y hob hout => ?_, fun s k y => ⟨?_, ?_⟩⟩
  · rcases ey_cases k with h | h | h <;>
      rw [h] <;> simp only [wrapY, NY] at hy2 ⊢ <;> split_ifs <;> omega
  · simp only [streaming, hob, Bool.false_eq_true, if_false, streamPull]
    rw [if_neg]
    rintro ⟨h1, h2⟩
    rcases hout with h | h <;> omega
  · norm_num [boundaryConditions]
  · norm_num [boundaryConditions, NX]

theorem streaming_boundary_policy_witness :
    (0 : ℤ) ≤ 199 ∧ (199 : ℤ) < NY ∧
    wrapY (199 + ey 2) = (199 + ey 2) % NY ∧
    demoState.obstacle 0 5 = false ∧ (0 : ℤ) - ex 1 < 0 ∧
    (streaming demoState).f 1 0 5 = 0 ∧
    (boundaryConditions demoState).f 0 (NX - 1) 7 = demoState.f 0 (NX - 2) 7 := by
  have hob : demoState.obstacle 0 5 = false := by
    show circleObstacle 0 5 = false
    simp only [circleObstacle, decide_eq_false_iff_not]
    norm_num
  refine ⟨by norm_num, by rw [NY]; norm_num, ?_, hob, by rw [ex1]; norm_num, ?_, ?_⟩
  · exact streaming_boundary_policy.1 199 2 (by norm_num) (by rw [NY]; norm_num)
  · exact streaming_boundary_policy.2.1 demoState 1 0 5 hob
      (Or.inl (by rw [ex1]; norm_num))
  · exact (streaming_boundary_policy.2.2 demoState 0 7).2

/-- C8: the inlet pass of BoundaryConditions sets, on every cell of the
left column x = 0, density 1, velocity (uIn * profile(y), 0) with the
flattened-parabola profile floored at the positive minimum 0.3, and
overwrites all populations of the cell with the equilibrium of that pair,
independently of whatever streamed into the column. -/
theorem inlet_boundary (s : LBM) (k : Fin 9) (y : ℤ) :
    (boundaryConditions s).f k 0 y = equilibrium 1 (s.uIn * inletProfile y) 0 k ∧
    (boundaryConditions s).rho 0 y = 1 ∧
    (boundaryConditions s).ux 0 y = s.uIn * inletProfile y ∧
    (boundaryConditions s).uy 0 y = 0 ∧
    (3/10 : ℚ) ≤ inletProfile y ∧ (0 : ℚ) < 3/10 ∧
    (∀ g : Fin 9 → ℤ → ℤ → ℚ,
      (boundaryConditions { s with f := g }).f k 0 y
        = (boundaryConditions s).f k 0 y) := by
  refine ⟨?_, ?_, ?_, ?_, le_max_left _ _, by norm_num, fun g => ?_⟩ <;>
    norm_num [boundaryConditions]

end OpenCFD
